import Mathlib

/-!
# Verification of the Foxy CLI core (secret store, schema-validated cache,
# config loader, commit-message generation, git-status parsing)

Shallow embedding of the TypeScript sources:
* `src/util/types/Settings.ts` — `ApiKeyManager` (encrypt/decrypt/save/load)
  and `CacheController` (saveCache/loadCache/createCache);
* `src/util/config/FoxyConfig.ts` — `FoxyConfigManager.loadConfig`;
* `src/util/CommitMessageGenerator.ts` — commit message generation, cleaning
  and fallback, and `FoxyClient.responder`'s settings-cache interaction;
* `src/index.ts` — `parseGitStatus`.

External collaborators (the AES block cipher from `node:crypto`, SHA-256, the
remote Gemini generation call, the interactive UI) are modelled as abstract
parameters; everything else is translated directly from the source.

Strings are manipulated through their character lists (`String.data`), with
JavaScript's `String.prototype.split` semantics reimplemented as `splitChar`.
-/

set_option autoImplicit false

namespace Foxy

/-- JavaScript `s.split(sep)` for a single-character separator:
splits at every occurrence, keeping empty segments
(`"".split(':') = [""]`, `":a:".split(':') = ["", "a", ""]`). -/
def splitChar (sep : Char) : List Char → List (List Char)
  | [] => [[]]
  | c :: rest =>
    let r := splitChar sep rest
    if c = sep then
      [] :: r
    else
      match r with
      | [] => [[c]]
      | h :: t => (c :: h) :: t

/-- JavaScript's `String.prototype.trim` whitespace test (the common
ASCII whitespace characters). -/
def isJsSpace (c : Char) : Bool :=
  c == ' ' || c == '\t' || c == '\n' || c == '\r' || c == '\x0b' || c == '\x0c'

/-- Model of `String.prototype.trim` on a character list. -/
def jsTrimList (l : List Char) : List Char :=
  ((l.dropWhile isJsSpace).reverse.dropWhile isJsSpace).reverse

/-- Model of `String.prototype.trim`. -/
def jsTrim (s : String) : String :=
  String.mk (jsTrimList s.data)

/-! ## Hex encoding (Node `Buffer.toString('hex')` / `Buffer.from(hex, 'hex')`) -/

/-- Lowercase hex digit for a nibble. -/
def hexDigitChar (n : Nat) : Char :=
  if n < 10 then Char.ofNat (48 + n) else Char.ofNat (87 + n)

/-- Value of a hex digit character, `none` for a non-hex character. -/
def hexVal (c : Char) : Option Nat :=
  if '0' ≤ c ∧ c ≤ '9' then some (c.toNat - 48)
  else if 'a' ≤ c ∧ c ≤ 'f' then some (c.toNat - 87)
  else if 'A' ≤ c ∧ c ≤ 'F' then some (c.toNat - 55)
  else none

/-- One byte as two lowercase hex digits. -/
def byteToHex (b : Nat) : List Char :=
  [hexDigitChar (b / 16 % 16), hexDigitChar (b % 16)]

/-- A byte list as a lowercase hex string (Node `buf.toString('hex')`). -/
def bytesToHex : List Nat → List Char
  | [] => []
  | b :: rest => byteToHex b ++ bytesToHex rest

/-- Hex decoding (Node `Buffer.from(s, 'hex')`): consumes pairs of hex
digits, stopping at the first invalid pair or lone trailing digit. -/
def hexToBytes : List Char → List Nat
  | c1 :: c2 :: rest =>
    match hexVal c1, hexVal c2 with
    | some a, some b => (16 * a + b) :: hexToBytes rest
    | _, _ => []
  | _ => []

/-! ## ApiKeyManager (src/util/types/Settings.ts, `ApiKeyManager`)

The AES-256-CBC block cipher from `node:crypto` is an external collaborator:
it is modelled as an abstract pair of functions on (iv, data).  `enc` returns
the hex-encoded ciphertext (`cipher.update(..,'utf8','hex') + cipher.final('hex')`);
`dec` returns `none` when `decipher.update/final` throws (bad key or padding). -/

structure Cipher where
  enc : List Nat → String → List Char
  dec : List Nat → List Char → Option String

/-- Model of `ApiKeyManager.encrypt`: fresh random `iv` (the randomness is an input),
returns `iv.toString('hex') + ':' + encrypted`. -/
def encryptRecord (c : Cipher) (iv : List Nat) (text : String) : String :=
  String.mk (bytesToHex iv ++ ':' :: c.enc iv text)

/-- The fixed message of `ApiKeyManager.decrypt`'s catch-all handler. -/
def decryptErrMsg : String :=
  "Erro ao descriptografar a API key - pode ter sido corrompida"

/-- Model of `ApiKeyManager.decrypt`: splits on `':'`, takes the first two parts
(JS destructuring `[ivHex, encryptedHex]`), rejects a missing/empty part,
decodes the IV from hex (`Buffer.from(ivHex,'hex')`; `createDecipheriv`
requires a 16-byte IV for aes-256-cbc) and runs the block cipher.  Every
failure inside the `try` is replaced by the single fixed error message. -/
def decryptRecord (c : Cipher) (encryptedText : String) : Except String String :=
  let parts := splitChar ':' encryptedText.data
  let ivHex := parts.getD 0 []
  let encryptedHex := parts.getD 1 []
  if ivHex.isEmpty || encryptedHex.isEmpty then
    Except.error decryptErrMsg
  else
    let iv := hexToBytes ivHex
    if iv.length = 16 then
      match c.dec iv encryptedHex with
      | some plain => Except.ok plain
      | none => Except.error decryptErrMsg
    else
      Except.error decryptErrMsg

/-- The state of `ApiKeyManager`: the content of `~/.foxy-config.enc`,
`none` when the file is absent. -/
structure SecretStore where
  file : Option String
  deriving DecidableEq

/-- Model of `ApiKeyManager.hasApiKey`: `existsSync(this.configPath)`. -/
def hasApiKey (st : SecretStore) : Bool :=
  st.file.isSome

/-- Model of `ApiKeyManager.saveApiKey`: encrypts and overwrites the secret file
(write errors are not modelled; the filesystem write always succeeds). -/
def saveApiKey (c : Cipher) (iv : List Nat) (_st : SecretStore) (apiKey : String) :
    SecretStore :=
  { file := some (encryptRecord c iv apiKey) }

/-- The "not found" message of `ApiKeyManager.loadApiKey`. -/
def notFoundMsg : String :=
  "API key não encontrada. Execute o setup primeiro."

/-- Model of `ApiKeyManager.loadApiKey`: "not found" when the file is absent;
otherwise reads and decrypts, wrapping any decryption error as
`Erro ao carregar API key: <message>`. -/
def loadApiKey (c : Cipher) (st : SecretStore) : Except String String :=
  match st.file with
  | none => Except.error notFoundMsg
  | some content =>
    match decryptRecord c content with
    | Except.ok key => Except.ok key
    | Except.error e => Except.error ("Erro ao carregar API key: " ++ e)

/-- A concrete instance of the abstract cipher used to exercise the record
format: the "encryption" is hex-encoding of the code points, decryption is
hex-decoding.  It satisfies the inversion hypotheses on ASCII plaintexts. -/
def idCipher : Cipher where
  enc := fun _ t => bytesToHex (t.data.map Char.toNat)
  dec := fun _ h => some (String.mk ((hexToBytes h).map Char.ofNat))

/-- A cipher whose decryption always fails (a changed derived key). -/
def failCipher : Cipher where
  enc := fun _ t => bytesToHex (t.data.map Char.toNat)
  dec := fun _ _ => none

/-- A 16-byte all-zero IV. -/
def iv0 : List Nat := List.replicate 16 0

/-! ## Key derivation (`ApiKeyManager.getSystemKey`)

SHA-256 (`createHash('sha256')...digest('hex')`) is external and is passed
in as an abstract `sha256hex : String → String`; the host environment
(platform, env vars, machine-id file, the macOS `system_profiler` call, and
a possible unexpected exception caught by the outer handler) is a record. -/

/-- JavaScript `v || d` on an environment variable: an absent or empty
string is falsy. -/
def jsOr (v : Option String) (d : String) : String :=
  match v with
  | some s => if s = "" then d else s
  | none => d

/-- The host environment observed by `getSystemKey`. -/
structure SysEnv where
  platformType : String
  envCOMPUTERNAME : Option String
  envUSERNAME : Option String
  envUSER : Option String
  machineIdExists : Bool
  readMachineId : Except Unit String
  macSerialOut : Except Unit String
  /-- An exception raised in the `try` body outside the per-branch
  handlers, caught by the outer catch-all. -/
  unexpected : Bool

/-- Model of `execSync(...).trim().split(':')[1]?.trim() || 'unknown'` on macOS. -/
def darwinSerial (out : String) : String :=
  match (splitChar ':' (jsTrim out).data).get? 1 with
  | some l =>
    let t := String.mk (jsTrimList l)
    if t = "" then "unknown" else t
  | none => "unknown"

/-- The `systemInfo` string composed by the platform `switch`. -/
def systemInfoOf (e : SysEnv) : String :=
  if e.platformType = "win32" then
    jsOr e.envCOMPUTERNAME "unknown" ++ "-" ++ jsOr e.envUSERNAME "unknown"
      ++ "-" ++ e.platformType
  else if e.platformType = "darwin" then
    match e.macSerialOut with
    | Except.ok out => darwinSerial out ++ "-" ++ e.platformType
    | Except.error _ => "macos-" ++ jsOr e.envUSER "user"
  else if e.platformType = "linux" then
    if e.machineIdExists then
      match e.readMachineId with
      | Except.ok content => jsTrim content ++ "-" ++ e.platformType
      | Except.error _ => "linux-" ++ jsOr e.envUSER "user"
    else
      "linux-" ++ jsOr e.envUSER "user"
  else
    e.platformType ++ "-" ++ jsOr e.envUSER (jsOr e.envUSERNAME "user")

/-- The outer-catch fallback: `platform()-USER||USERNAME||'fallback'`. -/
def genericFallback (e : SysEnv) : String :=
  e.platformType ++ "-" ++ jsOr e.envUSER (jsOr e.envUSERNAME "fallback")

/-- The identifier string actually hashed (normal path or outer catch). -/
def composedIdentifier (e : SysEnv) : String :=
  if e.unexpected then genericFallback e else systemInfoOf e

/-- Model of `ApiKeyManager.getSystemKey`: hash the composed identifier with SHA-256
and keep the first 32 hex characters (`digest('hex').substring(0, 32)`). -/
def getSystemKey (sha256hex : String → String) (e : SysEnv) : String :=
  if e.unexpected then
    String.mk ((sha256hex (genericFallback e)).data.take 32)
  else
    String.mk ((sha256hex (systemInfoOf e)).data.take 32)

/-- A stand-in for the SHA-256 hex digest: a fixed 64-character output. -/
def shaStub : String → String :=
  fun _ => "aaaaaaaaaaaaaaaaaaaaaaaaaaaaaaaaaaaaaaaaaaaaaaaaaaaaaaaaaaaaaaaa"

/-- A concrete environment in which the outer handler fires. -/
def env0 : SysEnv :=
  { platformType := "linux"
    envCOMPUTERNAME := none
    envUSERNAME := none
    envUSER := some "root"
    machineIdExists := false
    readMachineId := Except.error ()
    macSerialOut := Except.error ()
    unexpected := true }

/-! ## Schema-validated cache (src/util/types/Settings.ts, `CacheController`)

A zod schema is modelled over an abstract domain `D` of decoded JSON values
as a validation predicate plus the optional intrinsic default that
`loadCache` extracts when the schema is a `ZodDefault` (`_def.defaultValue()`).
`safeParse` on the schemas registered in this repository (`z.object` /
`z.enum`) returns its input unchanged on success, so `result.data` is the
parsed value itself.

The cache directory is a map from key to file state: a file either holds a
JSON value of `D` (`value`) or text that `JSON.parse` rejects (`corrupt`,
carrying the parse error's message).  Filesystem writes always succeed in
the model. -/

structure ZodSchema (D : Type) where
  validate : D → Bool
  intrinsicDefault : Option D

inductive CacheFile (D : Type) where
  | value (d : D)
  | corrupt (msg : String)
  deriving DecidableEq

/-- The on-disk state of the cache directory. -/
def CacheFS (D : Type) := List (String × CacheFile D)

instance {D : Type} [DecidableEq D] : DecidableEq (CacheFS D) :=
  inferInstanceAs (DecidableEq (List (String × CacheFile D)))

/-- The registry `schemas` fixed at construction. -/
def SchemaRegistry (D : Type) := List (String × ZodSchema D)

def lookupSchema {D : Type} (reg : SchemaRegistry D) (k : String) :
    Option (ZodSchema D) :=
  (reg.find? (fun p => p.1 == k)).map (fun p => p.2)

def lookupFile {D : Type} (fs : CacheFS D) (k : String) : Option (CacheFile D) :=
  (fs.find? (fun p => p.1 == k)).map (fun p => p.2)

/-- Model of `fs.writeFileSync(filePath, JSON.stringify(data))`: overwrite the entry. -/
def setFile {D : Type} (fs : CacheFS D) (k : String) (f : CacheFile D) : CacheFS D :=
  (k, f) :: fs

/-- Model of `CacheController.saveCache`: fails when the key is unregistered;
otherwise validates (a failure only emits a warning, returned here as the
`Bool`) and writes the value regardless. -/
def saveCache {D : Type} (reg : SchemaRegistry D) (fs : CacheFS D)
    (filename : String) (data : D) : Except String (Bool × CacheFS D) :=
  match lookupSchema reg filename with
  | none => Except.error ("Schema not found for key: " ++ filename)
  | some schema =>
    Except.ok (!(schema.validate data), setFile fs filename (CacheFile.value data))

def validationErrMsg (filename : String) : String :=
  "Error validating cache '" ++ filename ++
    "' and no default value was provided or defined in the schema."

def processingErrMsg (filename inner : String) : String :=
  "Error processing cache '" ++ filename ++ "': " ++ inner

def cacheNotFoundMsg (filename : String) : String :=
  "Cache '" ++ filename ++
    "' not found and no default value was provided or defined in the schema."

/-- Model of `CacheController.loadCache`.  Note that the `throw` raised on a
validation failure with no default sits inside the `try` block, so it is
caught by the function's own `catch` and re-wrapped into the
"Error processing cache" message. -/
def loadCache {D : Type} (reg : SchemaRegistry D) (fs : CacheFS D)
    (filename : String) (defaultValue : Option D) :
    Except String (D × CacheFS D) :=
  match lookupSchema reg filename with
  | none => Except.error ("Schema not found for key: " ++ filename)
  | some schema =>
    let effectiveDefaultValue :=
      match defaultValue with
      | some d => some d
      | none => schema.intrinsicDefault
    match lookupFile fs filename with
    | some (CacheFile.value parsed) =>
      if schema.validate parsed then
        Except.ok (parsed, fs)
      else
        match effectiveDefaultValue with
        | some d => Except.ok (d, setFile fs filename (CacheFile.value d))
        | none =>
          Except.error (processingErrMsg filename (validationErrMsg filename))
    | some (CacheFile.corrupt msg) =>
      match effectiveDefaultValue with
      | some d => Except.ok (d, setFile fs filename (CacheFile.value d))
      | none => Except.error (processingErrMsg filename msg)
    | none =>
      match effectiveDefaultValue with
      | some d => Except.ok (d, setFile fs filename (CacheFile.value d))
      | none => Except.error (cacheNotFoundMsg filename)

/-- Model of `CacheController.hasExistingCache` (and `cacheExists`). -/
def hasExistingCache {D : Type} (fs : CacheFS D) (filename : String) : Bool :=
  (lookupFile fs filename).isSome

/-- Model of `CacheController.createCache`: resolves a value to save (explicit
default, else the schema's own default), fails when neither exists,
otherwise saves and returns it (with `saveCache`'s warning flag). -/
def createCache {D : Type} (reg : SchemaRegistry D) (fs : CacheFS D)
    (filename : String) (defaultValue : Option D) :
    Except String (D × Bool × CacheFS D) :=
  match lookupSchema reg filename with
  | none => Except.error ("Schema not found for key: " ++ filename)
  | some schema =>
    let valueToSave :=
      match defaultValue with
      | some d => some d
      | none => schema.intrinsicDefault
    match valueToSave with
    | none =>
      Except.error ("No default value provided or defined in schema for '" ++
        filename ++ "'")
    | some v =>
      match saveCache reg fs filename v with
      | Except.error e => Except.error e
      | Except.ok (w, fs2) => Except.ok (v, w, fs2)

/-- The settings value universe: a JSON object with an `instrutor` string
field, or any other JSON shape. -/
inductive SettingsJson where
  | obj (instrutor : String)
  | other
  deriving DecidableEq

/-- Model of `SettingsSchema = z.object({ instrutor: z.enum(['chat_mode','normal']) })`:
no `.default(...)`, hence no intrinsic default. -/
def settingsSchema : ZodSchema SettingsJson :=
  { validate := fun v =>
      match v with
      | SettingsJson.obj s => s == "chat_mode" || s == "normal"
      | SettingsJson.other => false
    intrinsicDefault := none }

/-- The registry `{ settings: SettingsSchema }` of `FoxyClient`. -/
def settingsRegistry : SchemaRegistry SettingsJson :=
  [("settings", settingsSchema)]

/-! ## `FoxyClient.responder` (src/util/CommitMessageGenerator.ts part 2)

`ensureInitialized` (API-key acquisition) is assumed to have succeeded; the
prompt builder `PromptToGenerate` (a filesystem/battery string builder) and
`GGClient.generate` (the remote call) are abstract parameters.  The
settings-cache interaction is translated directly: seed the `settings`
cache when missing, then `loadCache('settings')` with *no* explicit
default. -/

/-- Error message prefix of `GGClient.generate` (the underlying cause is
irrelevant here and elided). -/
def generateFailMsg : String := "Failed to generate text"

def responder (promptToGenerate : String → String → String)
    (generate : String → Except Unit String)
    (fs : CacheFS SettingsJson) (text : String) :
    Except String (String × CacheFS SettingsJson) :=
  let fsInit : Except String (CacheFS SettingsJson) :=
    if hasExistingCache fs "settings" then
      Except.ok fs
    else
      match createCache settingsRegistry fs "settings"
          (some (SettingsJson.obj "normal")) with
      | Except.error e => Except.error e
      | Except.ok (_, _, fs2) => Except.ok fs2
  match fsInit with
  | Except.error e => Except.error e
  | Except.ok fs1 =>
    match loadCache settingsRegistry fs1 "settings" none with
    | Except.error e => Except.error e
    | Except.ok (cache, fs2) =>
      let mode :=
        match cache with
        | SettingsJson.obj s => if s == "chat_mode" then "chat_mode" else "any"
        | SettingsJson.other => "any"
      match generate (promptToGenerate mode text) with
      | Except.ok resp => Except.ok (resp, fs2)
      | Except.error _ => Except.error generateFailMsg

/-! ## Config loader (src/util/config/FoxyConfig.ts)

The `.foxycfg` file is modelled after `JSON.parse`: absent
(`none`), unreadable/unparseable (`some none`), or a parsed partial config
(`some (some u)`) in which every recognized key may be present or absent. -/

structure GitConfig where
  autoAdd : Bool
  confirmBeforeCommit : Bool
  includeStats : Bool
  autoCommit : Bool
  deriving DecidableEq

structure FoxyConfig where
  language : String
  conventionalCommits : Bool
  commitStyle : String
  maxMessageLength : Nat
  includeScope : Bool
  includeBreakingChanges : Bool
  emojis : Bool
  git : GitConfig
  deriving DecidableEq

def DEFAULT_CONFIG : FoxyConfig :=
  { language := "pt"
    conventionalCommits := true
    commitStyle := "conventional"
    maxMessageLength := 72
    includeScope := true
    includeBreakingChanges := true
    emojis := true
    git :=
      { autoAdd := true
        confirmBeforeCommit := false
        includeStats := true
        autoCommit := false } }

structure PartialGitConfig where
  autoAdd : Option Bool
  confirmBeforeCommit : Option Bool
  includeStats : Option Bool
  autoCommit : Option Bool

structure PartialFoxyConfig where
  language : Option String
  conventionalCommits : Option Bool
  commitStyle : Option String
  maxMessageLength : Option Nat
  includeScope : Option Bool
  includeBreakingChanges : Option Bool
  emojis : Option Bool
  git : Option PartialGitConfig

/-- The net effect of `{...DEFAULT_CONFIG.git, ...userConfig.git}`. -/
def mergeGit (d : GitConfig) (u : PartialGitConfig) : GitConfig :=
  { autoAdd := u.autoAdd.getD d.autoAdd
    confirmBeforeCommit := u.confirmBeforeCommit.getD d.confirmBeforeCommit
    includeStats := u.includeStats.getD d.includeStats
    autoCommit := u.autoCommit.getD d.autoCommit }

/-- Model of `FoxyConfigManager.loadConfig`.  The returned `Bool` is whether the
warning "Erro ao carregar .foxycfg" was emitted.  The top-level spread
`{...DEFAULT_CONFIG, ...userConfig}` followed by the explicit
`mergedConfig.git = {...DEFAULT_CONFIG.git, ...userConfig.git}` (performed
only `if (userConfig.git)`) nets to a field-wise merge with a one-level-deep
merge of the `git` group. -/
def loadConfig (file : Option (Option PartialFoxyConfig)) : FoxyConfig × Bool :=
  match file with
  | none => (DEFAULT_CONFIG, false)
  | some none => (DEFAULT_CONFIG, true)
  | some (some userConfig) =>
    ({ language := userConfig.language.getD DEFAULT_CONFIG.language
       conventionalCommits :=
         userConfig.conventionalCommits.getD DEFAULT_CONFIG.conventionalCommits
       commitStyle := userConfig.commitStyle.getD DEFAULT_CONFIG.commitStyle
       maxMessageLength :=
         userConfig.maxMessageLength.getD DEFAULT_CONFIG.maxMessageLength
       includeScope := userConfig.includeScope.getD DEFAULT_CONFIG.includeScope
       includeBreakingChanges :=
         userConfig.includeBreakingChanges.getD DEFAULT_CONFIG.includeBreakingChanges
       emojis := userConfig.emojis.getD DEFAULT_CONFIG.emojis
       git :=
         match userConfig.git with
         | none => DEFAULT_CONFIG.git
         | some g => mergeGit DEFAULT_CONFIG.git g }, false)

/-! ## Commit-message generation (src/util/CommitMessageGenerator.ts)

The remote call `foxyClient.responder(prompt)` / `await responded` is an
abstract `remote : String → Except Unit String`; any rejection lands in the
`catch` branch. -/

structure GitChanges where
  added : List String
  modified : List String
  deleted : List String
  deriving DecidableEq

/-- Model of `CommitMessageGenerator.buildChangeSummary`. -/
def buildChangeSummary (changes : GitChanges) : String :=
  let part := fun (label : String) (files : List String) =>
    if files.length > 0 then
      let fs := String.intercalate ", " (files.take 5)
      let more :=
        if files.length > 5 then " e mais " ++ toString (files.length - 5) else ""
      [label ++ ": " ++ fs ++ more]
    else []
  String.intercalate "\n"
    (part "Adicionados" changes.added ++ part "Modificados" changes.modified ++
      part "Removidos" changes.deleted)

/-- The conventional-commit prompt template. -/
def conventionalPrompt (cfg : FoxyConfig) (changeSummary : String) : String :=
  let language :=
    if cfg.language = "pt" then "português brasileiro" else "english"
  let emojiInstruction :=
    if cfg.emojis then
      "- Inclua emoji no início da mensagem (ex: ✨ feat: nova funcionalidade)"
    else
      "- NÃO inclua emojis na mensagem"
  "Analise as seguintes mudanças no código e gere uma mensagem de commit seguindo Conventional Commits:\n\n"
    ++ changeSummary
    ++ "\n\nGere uma mensagem no formato: tipo(escopo): descrição\n\n"
    ++ "Tipos disponíveis:\n- feat: nova funcionalidade\n- fix: correção de bug\n- refactor: refatoração de código\n- style: mudanças de formatação/estilo\n- docs: documentação\n- test: testes\n- chore: tarefas de manutenção\n- perf: melhorias de performance\n- ci: integração contínua\n- build: sistema de build\n- revert: reverter commit\n\n"
    ++ "Regras:\n- Use " ++ language
    ++ "\n- Seja conciso e claro\n- Máximo " ++ toString cfg.maxMessageLength
    ++ " caracteres\n- Use imperativo (ex: \"Adiciona\", \"Corrige\", \"Remove\")\n- Escopo é opcional, use apenas se relevante\n- "
    ++ emojiInstruction
    ++ "\n- Não inclua aspas na resposta\n\nResponda apenas com a mensagem do commit:"

/-- The simple-commit prompt template. -/
def simplePrompt (cfg : FoxyConfig) (changeSummary : String) : String :=
  let language :=
    if cfg.language = "pt" then "português brasileiro" else "english"
  "Com base nas seguintes mudanças no código, gere uma mensagem de commit concisa e descritiva em "
    ++ language ++ ":\n\n" ++ changeSummary
    ++ "\n\nA mensagem deve:\n- Ser clara e objetiva\n- Descrever o que foi feito\n- Usar imperativo (ex: \"Adiciona\", \"Corrige\", \"Remove\")\n- Ter no máximo "
    ++ toString cfg.maxMessageLength
    ++ " caracteres\n- Não incluir aspas ou caracteres especiais\n\nResponda apenas com a mensagem do commit:"

/-- The prompt sent to the remote call for a given config and change set. -/
def promptFor (cfg : FoxyConfig) (changes : GitChanges) : String :=
  if cfg.conventionalCommits then
    conventionalPrompt cfg (buildChangeSummary changes)
  else
    simplePrompt cfg (buildChangeSummary changes)

/-- Model of `message.trim().replace(/['"]/g, '')...` — drop quote characters. -/
def stripQuotes (l : List Char) : List Char :=
  l.filter (fun c => !(c == '\'' || c == '"'))

/-- Model of `.replace(/\n/g, ' ')` — newlines become spaces. -/
def newlinesToSpaces (l : List Char) : List Char :=
  l.map (fun c => if c == '\n' then ' ' else c)

/-- Model of `CommitMessageGenerator.cleanMessage`: trim, strip quotes, replace
newlines with spaces, truncate to `maxMessageLength` (`substring(0, n)`). -/
def cleanMessage (cfg : FoxyConfig) (message : String) : String :=
  String.mk ((newlinesToSpaces (stripQuotes (jsTrimList message.data))).take cfg.maxMessageLength)

/-- Model of `CommitMessageGenerator.getFallbackMessage`. -/
def getFallbackMessage (cfg : FoxyConfig) (changes : GitChanges) : String :=
  let totalChanges :=
    changes.added.length + changes.modified.length + changes.deleted.length
  let emoji := if cfg.emojis then "✨ " else ""
  if cfg.conventionalCommits then
    if changes.added.length > changes.modified.length then
      emoji ++ "feat: adiciona " ++ toString totalChanges ++ " arquivo(s)"
    else if changes.modified.length > 0 then
      emoji ++ "fix: atualiza " ++ toString totalChanges ++ " arquivo(s)"
    else
      emoji ++ "chore: atualiza " ++ toString totalChanges ++ " arquivo(s)"
  else
    emoji ++ "Atualiza " ++ toString totalChanges ++ " arquivo(s)"

/-- Model of `CommitMessageGenerator.generateConventionalCommit`: remote success is
cleaned; any remote failure yields the fallback. -/
def generateConventionalCommit (cfg : FoxyConfig)
    (remote : String → Except Unit String) (changes : GitChanges)
    (changeSummary : String) : String :=
  match remote (conventionalPrompt cfg changeSummary) with
  | Except.ok message => cleanMessage cfg message
  | Except.error _ => getFallbackMessage cfg changes

/-- Model of `CommitMessageGenerator.generateSimpleCommit`. -/
def generateSimpleCommit (cfg : FoxyConfig)
    (remote : String → Except Unit String) (changes : GitChanges)
    (changeSummary : String) : String :=
  match remote (simplePrompt cfg changeSummary) with
  | Except.ok message => cleanMessage cfg message
  | Except.error _ => getFallbackMessage cfg changes

/-- Model of `CommitMessageGenerator.generateCommitMessage`. -/
def generateCommitMessage (cfg : FoxyConfig)
    (remote : String → Except Unit String) (changes : GitChanges) : String :=
  let changeSummary := buildChangeSummary changes
  if cfg.conventionalCommits then
    generateConventionalCommit cfg remote changes changeSummary
  else
    generateSimpleCommit cfg remote changes changeSummary

/-- A config with a zero length budget, to exhibit that the fallback path
is not subject to the cleaning bound. -/
def zeroLenConfig : FoxyConfig :=
  { DEFAULT_CONFIG with maxMessageLength := 0 }

/-! ## Git status parsing (src/index.ts, `parseGitStatus`) -/

/-- Model of `status.split('\n').filter(line => line.trim())`. -/
def gitLines (status : String) : List String :=
  ((splitChar '\n' status.data).map String.mk).filter
    (fun l => jsTrimList l.data != [])

/-- One iteration of the `for` loop: the two-character code is
`line.substring(0, 2)`, the path is `line.substring(3)`, and the code is
tested for 'A', 'M' and 'D' by substring match (`status.includes(...)`),
each match pushing the path onto the corresponding list. -/
def gitStatusStep (acc : GitChanges) (line : String) : GitChanges :=
  let status := line.data.take 2
  let file := String.mk (line.data.drop 3)
  let acc1 :=
    if status.contains 'A' then { acc with added := acc.added ++ [file] } else acc
  let acc2 :=
    if status.contains 'M' then
      { acc1 with modified := acc1.modified ++ [file] }
    else acc1
  if status.contains 'D' then { acc2 with deleted := acc2.deleted ++ [file] } else acc2

/-- Model of `parseGitStatus`. -/
def parseGitStatus (status : String) : GitChanges :=
  (gitLines status).foldl gitStatusStep ⟨[], [], []⟩

theorem splitChar_ne_nil (sep : Char) (l : List Char) : splitChar sep l ≠ [] := by
  cases l with
  | nil => simp [splitChar]
  | cons c rest =>
    simp only [splitChar]
    split
    · simp
    · cases splitChar sep rest with
      | nil => simp
      | cons h t => simp

/-- A list containing no separator splits into a single segment. -/
theorem splitChar_of_not_mem (sep : Char) (l : List Char) (h : sep ∉ l) :
    splitChar sep l = [l] := by
  induction l with
  | nil => rfl
  | cons c rest ih =>
    simp only [List.mem_cons, not_or] at h
    simp only [splitChar]
    rw [if_neg (fun hc => h.1 hc.symm)]
    rw [ih h.2]

/-- Splitting `a ++ sep :: b` where neither half contains the separator
yields exactly the two halves. -/
theorem splitChar_append (sep : Char) (a b : List Char)
    (ha : sep ∉ a) (hb : sep ∉ b) :
    splitChar sep (a ++ sep :: b) = [a, b] := by
  induction a with
  | nil =>
    simp [splitChar, splitChar_of_not_mem sep b hb]
  | cons c rest ih =>
    simp only [List.mem_cons, not_or] at ha
    simp only [List.cons_append, splitChar, List.append_eq]
    rw [if_neg (fun hc => ha.1 hc.symm)]
    rw [ih ha.2]

theorem hexVal_hexDigitChar (n : Nat) (h : n < 16) :
    hexVal (hexDigitChar n) = some n := by
  interval_cases n <;> decide

theorem hexDigitChar_ne_colon (n : Nat) (h : n < 16) : hexDigitChar n ≠ ':' := by
  interval_cases n <;> decide

theorem colon_not_mem_bytesToHex (bs : List Nat) : ':' ∉ bytesToHex bs := by
  induction bs with
  | nil => simp [bytesToHex]
  | cons b rest ih =>
    simp only [bytesToHex, byteToHex, List.cons_append, List.mem_cons, List.nil_append,
      not_or]
    refine ⟨?_, ?_, ih⟩
    · exact fun hc => hexDigitChar_ne_colon _ (Nat.mod_lt _ (by norm_num)) hc.symm
    · exact fun hc => hexDigitChar_ne_colon _ (Nat.mod_lt _ (by norm_num)) hc.symm

theorem hexToBytes_bytesToHex (bs : List Nat) (h : ∀ b ∈ bs, b < 256) :
    hexToBytes (bytesToHex bs) = bs := by
  induction bs with
  | nil => rfl
  | cons b rest ih =>
    have hb : b < 256 := h b (List.mem_cons_self b rest)
    have h1 : b / 16 % 16 < 16 := Nat.mod_lt _ (by norm_num)
    have h2 : b % 16 < 16 := Nat.mod_lt _ (by norm_num)
    simp only [bytesToHex, byteToHex, List.cons_append, List.nil_append, List.append_eq,
      hexToBytes, hexVal_hexDigitChar _ h1, hexVal_hexDigitChar _ h2]
    rw [ih (fun x hx => h x (List.mem_cons_of_mem b hx))]
    congr 1
    have : b / 16 < 16 := Nat.div_lt_of_lt_mul (by omega)
    rw [Nat.mod_eq_of_lt this]
    omega

theorem bytesToHex_length (bs : List Nat) : (bytesToHex bs).length = 2 * bs.length := by
  induction bs with
  | nil => rfl
  | cons b rest ih =>
    simp only [bytesToHex, byteToHex, List.length_append, List.length_cons, ih]
    simp
    omega

/-- Round-trip of the record format: provided the block cipher inverts on
this (iv, plaintext) pair, produces colon-free nonempty hex ciphertext, and
the IV is 16 genuine bytes, `decrypt (encrypt s) = ok s`. -/
theorem decryptRecord_encryptRecord (c : Cipher) (iv : List Nat) (s : String)
    (hlen : iv.length = 16) (hbytes : ∀ b ∈ iv, b < 256)
    (hround : c.dec iv (c.enc iv s) = some s)
    (hcolon : ':' ∉ c.enc iv s) (hne : c.enc iv s ≠ []) :
    decryptRecord c (encryptRecord c iv s) = Except.ok s := by
  have hdata : (encryptRecord c iv s).data = bytesToHex iv ++ ':' :: c.enc iv s := rfl
  have hsplit : splitChar ':' (encryptRecord c iv s).data = [bytesToHex iv, c.enc iv s] := by
    rw [hdata]
    exact splitChar_append ':' _ _ (colon_not_mem_bytesToHex iv) hcolon
  have hivne : bytesToHex iv ≠ [] := by
    intro h
    have := bytesToHex_length iv
    rw [h, hlen] at this
    simp at this
  unfold decryptRecord
  rw [hsplit]
  simp only [List.getD, List.get?, Option.getD]
  rw [if_neg (by simp [List.isEmpty_iff, hivne, hne])]
  rw [hexToBytes_bytesToHex iv hbytes]
  rw [if_pos hlen, hround]

/-- Claim C1: for every secret `s`, decrypting the result of encrypting `s`
under the same derived key returns `s`; starting from no secret file,
`exists()` is `false` and `load()` fails, and after `save(s)` the method
`exists()` returns `true` and `load()` returns `s` unchanged — given that
the external AES block cipher inverts on this (iv, plaintext) pair and
produces nonempty colon-free hex ciphertext, and the IV is 16 bytes. -/
theorem apiKeyManager_roundtrip (c : Cipher) (iv : List Nat) (s : String)
    (hlen : iv.length = 16) (hbytes : ∀ b ∈ iv, b < 256)
    (hround : c.dec iv (c.enc iv s) = some s)
    (hcolon : ':' ∉ c.enc iv s) (hne : c.enc iv s ≠ []) :
    hasApiKey ⟨none⟩ = false ∧
    loadApiKey c ⟨none⟩ = Except.error notFoundMsg ∧
    decryptRecord c (encryptRecord c iv s) = Except.ok s ∧
    hasApiKey (saveApiKey c iv ⟨none⟩ s) = true ∧
    loadApiKey c (saveApiKey c iv ⟨none⟩ s) = Except.ok s := by
  have h := decryptRecord_encryptRecord c iv s hlen hbytes hround hcolon hne
  exact ⟨rfl, rfl, h, rfl, by simp only [saveApiKey, loadApiKey, h]⟩

/-- Witness for `apiKeyManager_roundtrip` at the concrete secret
`"AIzaTESTKEY"` with the hex-coding cipher and the zero IV. -/
theorem apiKeyManager_roundtrip_witness :
    hasApiKey ⟨none⟩ = false ∧
    loadApiKey idCipher ⟨none⟩ = Except.error notFoundMsg ∧
    decryptRecord idCipher (encryptRecord idCipher iv0 "AIzaTESTKEY") =
      Except.ok "AIzaTESTKEY" ∧
    hasApiKey (saveApiKey idCipher iv0 ⟨none⟩ "AIzaTESTKEY") = true ∧
    loadApiKey idCipher (saveApiKey idCipher iv0 ⟨none⟩ "AIzaTESTKEY") =
      Except.ok "AIzaTESTKEY" :=
  apiKeyManager_roundtrip idCipher iv0 "AIzaTESTKEY" (by decide) (by decide)
    (by decide) (by decide) (by decide)

/-- Claim C4, counterexample: the claim asserts three pairwise-distinct error
outcomes for `loadApiKey` ("not found", "malformed record", "decryption
failed").  On the code, a malformed record (no `':'` in the file, so a half
is missing) and a genuine decryption failure (well-formed record, cipher
rejects) produce the *same* error value, because `decrypt`'s catch-all
replaces its own malformed-format error with the fixed decryption-failure
message; the underlying cause is discarded, not wrapped. -/
theorem loadApiKey_malformed_eq_decryptFail :
    loadApiKey failCipher ⟨some "deadbeef"⟩ =
      loadApiKey failCipher ⟨some "00000000000000000000000000000000:abcd"⟩ ∧
    loadApiKey failCipher ⟨some "deadbeef"⟩ =
      Except.error ("Erro ao carregar API key: " ++ decryptErrMsg) := by
  exact ⟨rfl, rfl⟩

/-- Claim C4, amended: `loadApiKey` fails with the "not found" error when the
secret file is absent; when the file is present but malformed (splitting on
`':'` leaves either half missing) it fails, and when decryption fails it
fails, but both of those produce the same single wrapped message
`"Erro ao carregar API key: Erro ao descriptografar…"` — the internal
malformed-format error is caught and replaced, so exactly two distinct
outward error outcomes exist, and the underlying cause is not preserved. -/
theorem loadApiKey_two_error_outcomes (c : Cipher) (content content2 : String)
    (hml : ((splitChar ':' content.data).getD 0 []).isEmpty = true ∨
           ((splitChar ':' content.data).getD 1 []).isEmpty = true)
    (hdec : decryptRecord c content2 = Except.error decryptErrMsg) :
    loadApiKey c ⟨none⟩ = Except.error notFoundMsg ∧
    loadApiKey c ⟨some content⟩ =
      Except.error ("Erro ao carregar API key: " ++ decryptErrMsg) ∧
    loadApiKey c ⟨some content2⟩ =
      Except.error ("Erro ao carregar API key: " ++ decryptErrMsg) ∧
    notFoundMsg ≠ "Erro ao carregar API key: " ++ decryptErrMsg := by
  have hmal : decryptRecord c content = Except.error decryptErrMsg := by
    unfold decryptRecord
    rw [if_pos]
    rcases hml with h | h <;> simp_all
  refine ⟨rfl, ?_, ?_, by decide⟩
  · simp only [loadApiKey, hmal]
  · simp only [loadApiKey, hdec]

/-- Witness for `loadApiKey_two_error_outcomes`: a record with no `':'`
and a well-formed record the failing cipher cannot decrypt. -/
theorem loadApiKey_two_error_outcomes_witness :
    loadApiKey failCipher ⟨none⟩ = Except.error notFoundMsg ∧
    loadApiKey failCipher ⟨some "deadbeef"⟩ =
      Except.error ("Erro ao carregar API key: " ++ decryptErrMsg) ∧
    loadApiKey failCipher ⟨some "00000000000000000000000000000000:abcd"⟩ =
      Except.error ("Erro ao carregar API key: " ++ decryptErrMsg) ∧
    notFoundMsg ≠ "Erro ao carregar API key: " ++ decryptErrMsg :=
  loadApiKey_two_error_outcomes failCipher "deadbeef"
    "00000000000000000000000000000000:abcd" (by decide) (by rfl)

/-- Claim C3: `getSystemKey` never fails outward — it is a total function of
the host environment, every platform branch supplying a fallback identifier
and the outer handler a generic platform-plus-user fallback — and its result
is always the composed identifier hashed with SHA-256 and truncated to the
32-character (32-byte) key used for the 256-bit cipher. -/
theorem getSystemKey_total_hash_truncate (sha256hex : String → String)
    (e : SysEnv) (hsha : ∀ s, (sha256hex s).length = 64) :
    getSystemKey sha256hex e =
      String.mk ((sha256hex (composedIdentifier e)).data.take 32) ∧
    (getSystemKey sha256hex e).length = 32 ∧
    (e.unexpected = true →
      getSystemKey sha256hex e =
        String.mk ((sha256hex (genericFallback e)).data.take 32)) := by
  have hlen : ∀ s : String, (String.mk ((sha256hex s).data.take 32)).length = 32 := by
    intro s
    show ((sha256hex s).data.take 32).length = 32
    rw [List.length_take]
    have h := hsha s
    simp only [String.length] at h
    omega
  refine ⟨?_, ?_, ?_⟩
  · unfold getSystemKey composedIdentifier
    split <;> rfl
  · unfold getSystemKey
    split <;> exact hlen _
  · intro hu
    unfold getSystemKey
    rw [if_pos hu]

/-- Witness for `getSystemKey_total_hash_truncate` at a concrete
environment and hash. -/
theorem getSystemKey_total_hash_truncate_witness :
    getSystemKey shaStub env0 =
      String.mk ((shaStub (composedIdentifier env0)).data.take 32) ∧
    (getSystemKey shaStub env0).length = 32 ∧
    getSystemKey shaStub env0 =
      String.mk ((shaStub (genericFallback env0)).data.take 32) := by
  have h := getSystemKey_total_hash_truncate shaStub env0 (fun _ => rfl)
  exact ⟨h.1, h.2.1, h.2.2 rfl⟩

theorem lookupFile_setFile {D : Type} (fs : CacheFS D) (k : String) (f : CacheFile D) :
    lookupFile (setFile fs k f) k = some f := by
  simp [lookupFile, setFile, List.find?]

/-- Claim C2: for a registered key whose file holds a schema-violating value:
`saveCache` of such a value warns but writes it anyway; a later `loadCache`
without a default (the schema having no intrinsic default) fails with the
descriptive validation error; and a later `loadCache` with default `d`
returns `d` and overwrites the invalid file with `d`. -/
theorem cache_invalid_value_selfheal {D : Type} (reg : SchemaRegistry D)
    (k : String) (sch : ZodSchema D) (v d : D) (fs : CacheFS D)
    (hreg : lookupSchema reg k = some sch)
    (hv : sch.validate v = false)
    (hnodef : sch.intrinsicDefault = none) :
    saveCache reg fs k v = Except.ok (true, setFile fs k (CacheFile.value v)) ∧
    loadCache reg (setFile fs k (CacheFile.value v)) k none =
      Except.error (processingErrMsg k (validationErrMsg k)) ∧
    loadCache reg (setFile fs k (CacheFile.value v)) k (some d) =
      Except.ok (d, setFile (setFile fs k (CacheFile.value v)) k (CacheFile.value d)) := by
  refine ⟨?_, ?_, ?_⟩
  · simp [saveCache, hreg, hv]
  · simp [loadCache, hreg, lookupFile_setFile, hnodef, hv]
  · simp [loadCache, hreg, lookupFile_setFile, hv]

/-- Witness for `cache_invalid_value_selfheal` on the `settings` key with
the invalid value `{instrutor: "invalid"}` and default `{instrutor: "normal"}`. -/
theorem cache_invalid_value_selfheal_witness :
    saveCache settingsRegistry [] "settings" (SettingsJson.obj "invalid") =
      Except.ok (true, setFile [] "settings" (CacheFile.value (SettingsJson.obj "invalid"))) ∧
    loadCache settingsRegistry
        (setFile [] "settings" (CacheFile.value (SettingsJson.obj "invalid")))
        "settings" none =
      Except.error (processingErrMsg "settings" (validationErrMsg "settings")) ∧
    loadCache settingsRegistry
        (setFile [] "settings" (CacheFile.value (SettingsJson.obj "invalid")))
        "settings" (some (SettingsJson.obj "normal")) =
      Except.ok (SettingsJson.obj "normal",
        setFile (setFile [] "settings" (CacheFile.value (SettingsJson.obj "invalid")))
          "settings" (CacheFile.value (SettingsJson.obj "normal"))) :=
  cache_invalid_value_selfheal settingsRegistry "settings" settingsSchema
    (SettingsJson.obj "invalid") (SettingsJson.obj "normal") [] rfl rfl rfl

/-- Claim C5: `loadCache` on a key with no registered schema always fails,
whatever the filesystem state and whether or not a default is supplied. -/
theorem loadCache_unregistered_fails {D : Type} (reg : SchemaRegistry D)
    (fs : CacheFS D) (k : String) (dv : Option D)
    (h : lookupSchema reg k = none) :
    loadCache reg fs k dv = Except.error ("Schema not found for key: " ++ k) := by
  unfold loadCache
  rw [h]

/-- Witness for `loadCache_unregistered_fails`: an empty registry, even with
a file present for the key and an explicit default supplied. -/
theorem loadCache_unregistered_fails_witness :
    loadCache ([] : SchemaRegistry SettingsJson)
        [("settings", CacheFile.value (SettingsJson.obj "normal"))]
        "settings" (some (SettingsJson.obj "normal")) =
      Except.error ("Schema not found for key: " ++ "settings") :=
  loadCache_unregistered_fails [] _ "settings" _ rfl

/-- Claim C9 (implicit): when the `settings` cache file exists but holds
invalid JSON or a value violating `SettingsSchema`, `FoxyClient.responder`
throws rather than self-healing: it calls `loadCache('settings')` with no
explicit default and `SettingsSchema` declares no intrinsic default, so the
cache's default-substitution never applies at this call site. -/
theorem responder_invalid_settings_throws
    (promptToGenerate : String → String → String)
    (generate : String → Except Unit String)
    (fs : CacheFS SettingsJson) (text : String) (v : SettingsJson) (msg : String) :
    (lookupFile fs "settings" = some (CacheFile.value v) →
      settingsSchema.validate v = false →
      responder promptToGenerate generate fs text =
        Except.error (processingErrMsg "settings" (validationErrMsg "settings"))) ∧
    (lookupFile fs "settings" = some (CacheFile.corrupt msg) →
      responder promptToGenerate generate fs text =
        Except.error (processingErrMsg "settings" msg)) := by
  have hreg : lookupSchema settingsRegistry "settings" = some settingsSchema := rfl
  have hnodef : settingsSchema.intrinsicDefault = none := rfl
  constructor
  · intro hf hv
    simp [responder, hasExistingCache, hf, loadCache, hreg, hnodef, hv]
  · intro hf
    simp [responder, hasExistingCache, hf, loadCache, hreg, hnodef]

/-- Witness for `responder_invalid_settings_throws`: a settings file holding
`{instrutor: "invalid"}`, and one holding unparseable JSON. -/
theorem responder_invalid_settings_throws_witness :
    responder (fun _ q => q) (fun p => Except.ok p)
        [("settings", CacheFile.value (SettingsJson.obj "invalid"))] "oi" =
      Except.error (processingErrMsg "settings" (validationErrMsg "settings")) ∧
    responder (fun _ q => q) (fun p => Except.ok p)
        [("settings", CacheFile.corrupt "Unexpected token")] "oi" =
      Except.error (processingErrMsg "settings" "Unexpected token") := by
  constructor
  · exact (responder_invalid_settings_throws (fun _ q => q) (fun p => Except.ok p)
      [("settings", CacheFile.value (SettingsJson.obj "invalid"))] "oi"
      (SettingsJson.obj "invalid") "Unexpected token").1 rfl rfl
  · exact (responder_invalid_settings_throws (fun _ q => q) (fun p => Except.ok p)
      [("settings", CacheFile.corrupt "Unexpected token")] "oi"
      SettingsJson.other "Unexpected token").2 rfl

/-- Claim C8: `loadConfig` returns the built-in defaults when no `.foxycfg`
exists, and when reading/parsing fails (emitting a warning only in that
case); otherwise it returns the shallow merge of the file's top-level keys
over the defaults, with the file's `git` group merged field-wise over the
default `git` group (and the defaults' `git` group kept when the file has
none). -/
theorem loadConfig_merge (u : PartialFoxyConfig) :
    loadConfig none = (DEFAULT_CONFIG, false) ∧
    loadConfig (some none) = (DEFAULT_CONFIG, true) ∧
    (loadConfig (some (some u))).2 = false ∧
    (loadConfig (some (some u))).1.language = u.language.getD DEFAULT_CONFIG.language ∧
    (loadConfig (some (some u))).1.conventionalCommits =
      u.conventionalCommits.getD DEFAULT_CONFIG.conventionalCommits ∧
    (loadConfig (some (some u))).1.commitStyle =
      u.commitStyle.getD DEFAULT_CONFIG.commitStyle ∧
    (loadConfig (some (some u))).1.maxMessageLength =
      u.maxMessageLength.getD DEFAULT_CONFIG.maxMessageLength ∧
    (loadConfig (some (some u))).1.includeScope =
      u.includeScope.getD DEFAULT_CONFIG.includeScope ∧
    (loadConfig (some (some u))).1.includeBreakingChanges =
      u.includeBreakingChanges.getD DEFAULT_CONFIG.includeBreakingChanges ∧
    (loadConfig (some (some u))).1.emojis = u.emojis.getD DEFAULT_CONFIG.emojis ∧
    (loadConfig (some (some u))).1.git =
      (match u.git with
       | none => DEFAULT_CONFIG.git
       | some g => mergeGit DEFAULT_CONFIG.git g) := by
  refine ⟨rfl, rfl, rfl, rfl, rfl, rfl, rfl, rfl, rfl, rfl, rfl⟩

/-- Claim C6: when the remote generation call fails, `generateCommitMessage`
does not propagate the error but returns the deterministic templated
fallback; and that fallback depends only on the three change counts and on
the `emojis` / `conventionalCommits` config flags. -/
theorem generateCommitMessage_fallback_on_error
    (cfg cfg2 : FoxyConfig) (remote : String → Except Unit String)
    (changes changes2 : GitChanges)
    (hfail : remote (promptFor cfg changes) = Except.error ())
    (ha : changes.added.length = changes2.added.length)
    (hm : changes.modified.length = changes2.modified.length)
    (hd : changes.deleted.length = changes2.deleted.length)
    (he : cfg.emojis = cfg2.emojis)
    (hc : cfg.conventionalCommits = cfg2.conventionalCommits) :
    generateCommitMessage cfg remote changes = getFallbackMessage cfg changes ∧
    getFallbackMessage cfg changes = getFallbackMessage cfg2 changes2 := by
  constructor
  · unfold generateCommitMessage generateConventionalCommit generateSimpleCommit
    unfold promptFor at hfail
    by_cases h : cfg.conventionalCommits
    · rw [if_pos h] at hfail ⊢
      rw [hfail]
    · rw [if_neg h] at hfail
      rw [if_neg h, hfail]
  · unfold getFallbackMessage
    rw [ha, hm, hd, he, hc]

/-- Witness for `generateCommitMessage_fallback_on_error`: concrete failing
remote, two configs differing only outside the two flags, and two change
sets with equal counts. -/
theorem generateCommitMessage_fallback_on_error_witness :
    generateCommitMessage DEFAULT_CONFIG (fun _ => Except.error ())
        ⟨["a.ts", "b.ts"], ["c.ts"], []⟩ =
      getFallbackMessage DEFAULT_CONFIG ⟨["a.ts", "b.ts"], ["c.ts"], []⟩ ∧
    getFallbackMessage DEFAULT_CONFIG ⟨["a.ts", "b.ts"], ["c.ts"], []⟩ =
      getFallbackMessage { DEFAULT_CONFIG with language := "en", maxMessageLength := 10 }
        ⟨["x.rb", "y.rb"], ["z.rb"], []⟩ :=
  generateCommitMessage_fallback_on_error DEFAULT_CONFIG
    { DEFAULT_CONFIG with language := "en", maxMessageLength := 10 }
    (fun _ => Except.error ()) ⟨["a.ts", "b.ts"], ["c.ts"], []⟩
    ⟨["x.rb", "y.rb"], ["z.rb"], []⟩ rfl rfl rfl rfl rfl rfl

theorem cleanMessage_length (cfg : FoxyConfig) (m : String) :
    (cleanMessage cfg m).length ≤ cfg.maxMessageLength := by
  show ((newlinesToSpaces (stripQuotes (jsTrimList m.data))).take cfg.maxMessageLength).length ≤ _
  rw [List.length_take]
  exact Nat.min_le_left _ _

theorem no_bad_chars_newlinesToSpaces_stripQuotes (l : List Char) :
    '\'' ∉ newlinesToSpaces (stripQuotes l) ∧
    '"' ∉ newlinesToSpaces (stripQuotes l) ∧
    '\n' ∉ newlinesToSpaces (stripQuotes l) := by
  refine ⟨?_, ?_, ?_⟩ <;> intro h
  · obtain ⟨b, hb, hbe⟩ := List.mem_map.mp h
    obtain ⟨_, hbf⟩ := List.mem_filter.mp hb
    split at hbe
    · exact absurd hbe (by decide)
    · subst hbe
      simp at hbf
  · obtain ⟨b, hb, hbe⟩ := List.mem_map.mp h
    obtain ⟨_, hbf⟩ := List.mem_filter.mp hb
    split at hbe
    · exact absurd hbe (by decide)
    · subst hbe
      simp at hbf
  · obtain ⟨b, hb, hbe⟩ := List.mem_map.mp h
    split at hbe
    · exact absurd hbe (by decide)
    · subst hbe
      simp_all

theorem cleanMessage_no_bad_chars (cfg : FoxyConfig) (m : String) :
    '\'' ∉ (cleanMessage cfg m).data ∧
    '"' ∉ (cleanMessage cfg m).data ∧
    '\n' ∉ (cleanMessage cfg m).data := by
  have hbase := no_bad_chars_newlinesToSpaces_stripQuotes (jsTrimList m.data)
  have hsub : ∀ c : Char, c ∈ (cleanMessage cfg m).data →
      c ∈ newlinesToSpaces (stripQuotes (jsTrimList m.data)) := by
    intro c hc
    exact List.mem_of_mem_take hc
  exact ⟨fun h => hbase.1 (hsub _ h), fun h => hbase.2.1 (hsub _ h),
    fun h => hbase.2.2 (hsub _ h)⟩

/-- Claim C10 (implicit): whenever the remote call succeeds with message `m`,
`generateCommitMessage` returns `cleanMessage m`, whose length is at most
`config.maxMessageLength` and which contains no single-quote, double-quote
or newline characters; the fallback message produced on remote failure is
not passed through this cleaning — with a zero length budget it still has
positive length, exceeding the bound. -/
theorem generateCommitMessage_cleaned_on_success (cfg : FoxyConfig)
    (remote : String → Except Unit String) (changes : GitChanges) (m : String)
    (hok : remote (promptFor cfg changes) = Except.ok m) :
    generateCommitMessage cfg remote changes = cleanMessage cfg m ∧
    (generateCommitMessage cfg remote changes).length ≤ cfg.maxMessageLength ∧
    '\'' ∉ (generateCommitMessage cfg remote changes).data ∧
    '"' ∉ (generateCommitMessage cfg remote changes).data ∧
    '\n' ∉ (generateCommitMessage cfg remote changes).data ∧
    generateCommitMessage zeroLenConfig (fun _ => Except.error ())
        ⟨["a.ts"], [], []⟩ =
      getFallbackMessage zeroLenConfig ⟨["a.ts"], [], []⟩ ∧
    (generateCommitMessage zeroLenConfig (fun _ => Except.error ())
        ⟨["a.ts"], [], []⟩).length > zeroLenConfig.maxMessageLength := by
  have hgen : generateCommitMessage cfg remote changes = cleanMessage cfg m := by
    unfold generateCommitMessage generateConventionalCommit generateSimpleCommit
    unfold promptFor at hok
    by_cases h : cfg.conventionalCommits
    · rw [if_pos h] at hok ⊢
      rw [hok]
    · rw [if_neg h] at hok
      rw [if_neg h, hok]
  have hchars := cleanMessage_no_bad_chars cfg m
  refine ⟨hgen, ?_, ?_, ?_, ?_, by rfl, by decide⟩
  · rw [hgen]
    exact cleanMessage_length cfg m
  · rw [hgen]
    exact hchars.1
  · rw [hgen]
    exact hchars.2.1
  · rw [hgen]
    exact hchars.2.2

/-- Witness for `generateCommitMessage_cleaned_on_success`: a successful
remote returning a quoted, multi-line message longer than the budget. -/
theorem generateCommitMessage_cleaned_on_success_witness :
    generateCommitMessage DEFAULT_CONFIG
        (fun _ => Except.ok " \"feat: adiciona\n'tudo'\" ") ⟨["a.ts"], [], []⟩ =
      cleanMessage DEFAULT_CONFIG " \"feat: adiciona\n'tudo'\" " ∧
    (generateCommitMessage DEFAULT_CONFIG
        (fun _ => Except.ok " \"feat: adiciona\n'tudo'\" ")
        ⟨["a.ts"], [], []⟩).length ≤ DEFAULT_CONFIG.maxMessageLength ∧
    '\'' ∉ (generateCommitMessage DEFAULT_CONFIG
        (fun _ => Except.ok " \"feat: adiciona\n'tudo'\" ") ⟨["a.ts"], [], []⟩).data ∧
    '"' ∉ (generateCommitMessage DEFAULT_CONFIG
        (fun _ => Except.ok " \"feat: adiciona\n'tudo'\" ") ⟨["a.ts"], [], []⟩).data ∧
    '\n' ∉ (generateCommitMessage DEFAULT_CONFIG
        (fun _ => Except.ok " \"feat: adiciona\n'tudo'\" ") ⟨["a.ts"], [], []⟩).data ∧
    generateCommitMessage zeroLenConfig (fun _ => Except.error ())
        ⟨["a.ts"], [], []⟩ =
      getFallbackMessage zeroLenConfig ⟨["a.ts"], [], []⟩ ∧
    (generateCommitMessage zeroLenConfig (fun _ => Except.error ())
        ⟨["a.ts"], [], []⟩).length > zeroLenConfig.maxMessageLength :=
  generateCommitMessage_cleaned_on_success DEFAULT_CONFIG
    (fun _ => Except.ok " \"feat: adiciona\n'tudo'\" ") ⟨["a.ts"], [], []⟩
    " \"feat: adiciona\n'tudo'\" " rfl

theorem gitStatusStep_added (acc : GitChanges) (line : String) :
    (gitStatusStep acc line).added =
      acc.added ++ (if (line.data.take 2).contains 'A'
                    then [String.mk (line.data.drop 3)] else []) := by
  by_cases h1 : 'A' ∈ line.data.take 2 <;>
    by_cases h2 : 'M' ∈ line.data.take 2 <;>
      by_cases h3 : 'D' ∈ line.data.take 2 <;>
        simp [gitStatusStep, h1, h2, h3]

theorem gitStatusStep_modified (acc : GitChanges) (line : String) :
    (gitStatusStep acc line).modified =
      acc.modified ++ (if (line.data.take 2).contains 'M'
                       then [String.mk (line.data.drop 3)] else []) := by
  by_cases h1 : 'A' ∈ line.data.take 2 <;>
    by_cases h2 : 'M' ∈ line.data.take 2 <;>
      by_cases h3 : 'D' ∈ line.data.take 2 <;>
        simp [gitStatusStep, h1, h2, h3]

theorem gitStatusStep_deleted (acc : GitChanges) (line : String) :
    (gitStatusStep acc line).deleted =
      acc.deleted ++ (if (line.data.take 2).contains 'D'
                      then [String.mk (line.data.drop 3)] else []) := by
  by_cases h1 : 'A' ∈ line.data.take 2 <;>
    by_cases h2 : 'M' ∈ line.data.take 2 <;>
      by_cases h3 : 'D' ∈ line.data.take 2 <;>
        simp [gitStatusStep, h1, h2, h3]

theorem foldl_gitStatusStep_added (lines : List String) (acc : GitChanges) :
    (lines.foldl gitStatusStep acc).added =
      acc.added ++
        ((lines.filter (fun l => (l.data.take 2).contains 'A')).map
          (fun l => String.mk (l.data.drop 3))) := by
  induction lines generalizing acc with
  | nil => simp
  | cons l rest ih =>
    simp only [List.foldl_cons, ih, gitStatusStep_added, List.filter_cons]
    by_cases h : 'A' ∈ l.data.take 2 <;>
      simp [h, List.append_assoc]

theorem foldl_gitStatusStep_modified (lines : List String) (acc : GitChanges) :
    (lines.foldl gitStatusStep acc).modified =
      acc.modified ++
        ((lines.filter (fun l => (l.data.take 2).contains 'M')).map
          (fun l => String.mk (l.data.drop 3))) := by
  induction lines generalizing acc with
  | nil => simp
  | cons l rest ih =>
    simp only [List.foldl_cons, ih, gitStatusStep_modified, List.filter_cons]
    by_cases h : 'M' ∈ l.data.take 2 <;>
      simp [h, List.append_assoc]

theorem foldl_gitStatusStep_deleted (lines : List String) (acc : GitChanges) :
    (lines.foldl gitStatusStep acc).deleted =
      acc.deleted ++
        ((lines.filter (fun l => (l.data.take 2).contains 'D')).map
          (fun l => String.mk (l.data.drop 3))) := by
  induction lines generalizing acc with
  | nil => simp
  | cons l rest ih =>
    simp only [List.foldl_cons, ih, gitStatusStep_deleted, List.filter_cons]
    by_cases h : 'D' ∈ l.data.take 2 <;>
      simp [h, List.append_assoc]

/-- Claim C7: on the input lines `"A  new.ts"`, `" M old.ts"`, `"D  gone.ts"`
the parser returns added=["new.ts"], modified=["old.ts"],
deleted=["gone.ts"]; in general, each nonblank line is classified into
added/modified/deleted by substring match of 'A'/'M'/'D' on its first two
characters, the path being the line from its fourth character onward. -/
theorem parseGitStatus_classification (status : String) :
    parseGitStatus "A  new.ts\n M old.ts\nD  gone.ts" =
      ⟨["new.ts"], ["old.ts"], ["gone.ts"]⟩ ∧
    (parseGitStatus status).added =
      ((gitLines status).filter (fun l => (l.data.take 2).contains 'A')).map
        (fun l => String.mk (l.data.drop 3)) ∧
    (parseGitStatus status).modified =
      ((gitLines status).filter (fun l => (l.data.take 2).contains 'M')).map
        (fun l => String.mk (l.data.drop 3)) ∧
    (parseGitStatus status).deleted =
      ((gitLines status).filter (fun l => (l.data.take 2).contains 'D')).map
        (fun l => String.mk (l.data.drop 3)) := by
  refine ⟨by decide, ?_, ?_, ?_⟩
  · rw [parseGitStatus, foldl_gitStatusStep_added]
    rfl
  · rw [parseGitStatus, foldl_gitStatusStep_modified]
    rfl
  · rw [parseGitStatus, foldl_gitStatusStep_deleted]
    rfl

end Foxy

